import Mathlib

/-!
Verification development for the MeetAI plugin (openclaw repository).

The definitions below are a shallow embedding of the TypeScript sources:
- `src/unnamed/part_000` (`AsrClient`: `generateSignature`, `checkAudioFile`,
  `uploadAudio`, `pollResult`, `parseTranscript`, `transcribe`),
- `src/extensions/meetai/src/renderer-client.ts` (`RendererClient.renderMarkmap`),
- `src/extensions/meetai/src/tools.ts` (`meeting_mindmap.execute` tail,
  source-path detection in `meeting_summarize` / `meeting_mindmap`).

Effectful code is embedded by passing the environment explicitly:
the filesystem is a function `String → FsEntry`, the network is an oracle
(`Nat → PollResponse` for the poll loop, a `FetchOutcome` for the renderer),
and traces record how many network queries were issued and which timed
waits (`setTimeout` durations, in milliseconds) were performed.
Machine words inside SHA-1 are `Nat` reduced modulo `2 ^ 32`.
-/

namespace MeetAI

/-! ### Byte-level primitives: UTF-8, SHA-1, HMAC, Base64

These model `crypto.createHmac("sha1", _)`, `hmac.digest("base64")` and the
UTF-8 byte treatment of JavaScript strings.  Bytes are `Nat` values `< 256`;
32-bit words are `Nat` values reduced modulo `2 ^ 32 = 4294967296`.
-/

/-- UTF-8 encoding of a single Unicode code point, as a list of bytes. -/
def utf8Bytes (c : Char) : List Nat :=
  let n := c.toNat
  if n < 128 then [n]
  else if n < 2048 then [192 + n / 64, 128 + n % 64]
  else if n < 65536 then [224 + n / 4096, 128 + n / 64 % 64, 128 + n % 64]
  else [240 + n / 262144, 128 + n / 4096 % 64, 128 + n / 64 % 64, 128 + n % 64]

/-- UTF-8 bytes of a string. -/
def strBytes (s : String) : List Nat :=
  (s.data.map utf8Bytes).flatten

/-- Left rotation of a 32-bit word (input assumed `< 2 ^ 32`). -/
def rotl (n x : Nat) : Nat :=
  ((x <<< n) % 4294967296) ||| (x >>> (32 - n))

/-- Big-endian 8-byte encoding of a 64-bit length. -/
def beBytes8 (n : Nat) : List Nat :=
  [n / 72057594037927936 % 256, n / 281474976710656 % 256,
   n / 1099511627776 % 256, n / 4294967296 % 256,
   n / 16777216 % 256, n / 65536 % 256, n / 256 % 256, n % 256]

/-- Big-endian 4-byte encoding of a 32-bit word. -/
def wordBytes (n : Nat) : List Nat :=
  [n / 16777216 % 256, n / 65536 % 256, n / 256 % 256, n % 256]

/-- SHA-1 message padding: append `0x80`, zero bytes, and the 64-bit
bit-length, reaching a multiple of 64 bytes. -/
def sha1Pad (msg : List Nat) : List Nat :=
  msg ++ [128] ++ List.replicate ((119 - msg.length % 64) % 64) 0
    ++ beBytes8 (msg.length * 8)

/-- Split a byte list into 64-byte chunks. -/
def chunks64 (l : List Nat) : List (List Nat) :=
  if h : l = [] then []
  else l.take 64 :: chunks64 (l.drop 64)
termination_by l.length
decreasing_by
  simp only [List.length_drop]
  have : 0 < l.length := List.length_pos.mpr h
  omega

/-- The 16 big-endian 32-bit words of one 64-byte chunk. -/
def toWords (chunk : List Nat) : List Nat :=
  (List.range 16).map fun i =>
    chunk.getD (4 * i) 0 * 16777216 + chunk.getD (4 * i + 1) 0 * 65536 +
      chunk.getD (4 * i + 2) 0 * 256 + chunk.getD (4 * i + 3) 0

/-- One step of the SHA-1 message-schedule extension. -/
def sha1ExtendStep (w : List Nat) : List Nat :=
  w ++ [rotl 1 (w.getD (w.length - 3) 0 ^^^ w.getD (w.length - 8) 0 ^^^
    w.getD (w.length - 14) 0 ^^^ w.getD (w.length - 16) 0)]

/-- Extend 16 schedule words to 80. -/
def sha1Schedule (w : List Nat) : List Nat :=
  (List.range 64).foldl (fun acc _ => sha1ExtendStep acc) w

/-- SHA-1 round function, selected by the round index. -/
def sha1F (t b c d : Nat) : Nat :=
  if t < 20 then (b &&& c) ||| ((b ^^^ 4294967295) &&& d)
  else if t < 40 then b ^^^ c ^^^ d
  else if t < 60 then (b &&& c) ||| (b &&& d) ||| (c &&& d)
  else b ^^^ c ^^^ d

/-- SHA-1 round constant, selected by the round index. -/
def sha1K (t : Nat) : Nat :=
  if t < 20 then 1518500249
  else if t < 40 then 1859775393
  else if t < 60 then 2400959708
  else 3395469782

/-- Compress one 64-byte chunk into the running SHA-1 state. -/
def sha1Compress (h : Nat × Nat × Nat × Nat × Nat) (chunk : List Nat) :
    Nat × Nat × Nat × Nat × Nat :=
  let w := sha1Schedule (toWords chunk)
  let (h0, h1, h2, h3, h4) := h
  let final := w.enum.foldl
    (fun st tw =>
      let (a, b, c, d, e) := st
      let temp := (rotl 5 a + sha1F tw.1 b c d + e + sha1K tw.1 + tw.2) % 4294967296
      (temp, a, rotl 30 b, c, d))
    (h0, h1, h2, h3, h4)
  let (a, b, c, d, e) := final
  ((h0 + a) % 4294967296, (h1 + b) % 4294967296, (h2 + c) % 4294967296,
   (h3 + d) % 4294967296, (h4 + e) % 4294967296)

/-- SHA-1 digest of a byte list (20 bytes). -/
def sha1 (msg : List Nat) : List Nat :=
  let hs := (chunks64 (sha1Pad msg)).foldl sha1Compress
    (1732584193, 4023233417, 2562383102, 271733878, 3285377520)
  wordBytes hs.1 ++ wordBytes hs.2.1 ++ wordBytes hs.2.2.1 ++
    wordBytes hs.2.2.2.1 ++ wordBytes hs.2.2.2.2

/-- HMAC-SHA1 (RFC 2104) over byte lists; block size 64. -/
def hmacSha1 (key msg : List Nat) : List Nat :=
  let k0 := if key.length > 64 then sha1 key else key
  let k := k0 ++ List.replicate (64 - k0.length) 0
  sha1 ((k.map fun b => b ^^^ 92) ++ sha1 ((k.map fun b => b ^^^ 54) ++ msg))

/-- The 64 Base64 digit characters. -/
def b64Char (n : Nat) : Char :=
  "ABCDEFGHIJKLMNOPQRSTUVWXYZabcdefghijklmnopqrstuvwxyz0123456789+/".data.getD n 'A'

/-- Standard Base64 encoding of a byte list, with `=` padding
(`Buffer`/`hmac.digest("base64")` semantics). -/
def base64Encode : List Nat → String
  | [] => ""
  | [a] =>
      let n := a * 65536
      String.mk [b64Char (n / 262144 % 64), b64Char (n / 4096 % 64)] ++ "=="
  | [a, b] =>
      let n := a * 65536 + b * 256
      String.mk [b64Char (n / 262144 % 64), b64Char (n / 4096 % 64),
        b64Char (n / 64 % 64)] ++ "="
  | a :: b :: c :: rest =>
      let n := a * 65536 + b * 256 + c
      String.mk [b64Char (n / 262144 % 64), b64Char (n / 4096 % 64),
        b64Char (n / 64 % 64), b64Char (n % 64)] ++ base64Encode rest

/-- Uppercase hexadecimal digit. -/
def hexUpper (n : Nat) : Char :=
  "0123456789ABCDEF".data.getD n '0'

/-- Percent-encoding of one byte, `%XX` with uppercase hex. -/
def pctEncodeByte (b : Nat) : String :=
  "%" ++ String.mk [hexUpper (b / 16), hexUpper (b % 16)]

/-- Characters left unescaped by JavaScript `encodeURIComponent`. -/
def uriUnreserved (c : Char) : Bool :=
  c.isAlpha || c.isDigit || ['-', '_', '.', '!', '~', '*', '\'', '(', ')'].contains c

/-- JavaScript `encodeURIComponent`: unreserved characters are kept, every
other character is percent-encoded byte-by-byte in UTF-8. -/
def encodeURIComponent (s : String) : String :=
  String.join (s.data.map fun c =>
    if uriUnreserved c then String.singleton c
    else String.join ((utf8Bytes c).map pctEncodeByte))

/-! ### JavaScript-style helpers -/

/-- JavaScript `x || d` for an optional string: `undefined` and `""` are
falsy and yield the default. -/
def jsOrStr (o : Option String) (d : String) : String :=
  match o with
  | none => d
  | some v => if v = "" then d else v

/-- First-match lookup in an association list, modelling `params[k]` access
on a JavaScript record. -/
def jsGet : List (String × String) → String → Option String
  | [], _ => none
  | (k2, v) :: rest, k => if k2 = k then some v else jsGet rest k

/-- Substring occurrence test on character lists (structural recursion, so
it evaluates inside the kernel). -/
def listHasInfix (pat : List Char) : List Char → Bool
  | [] => pat.isEmpty
  | c :: rest => pat.isPrefixOf (c :: rest) || listHasInfix pat rest

/-- JavaScript `String.prototype.includes`. -/
def jsIncludes (s pat : String) : Bool :=
  listHasInfix pat.data s.data

/-- JavaScript `String.prototype.endsWith`. -/
def jsEndsWith (s pat : String) : Bool :=
  pat.data.isSuffixOf s.data

/-- Replace the first occurrence of `pat` in a character list. -/
def replaceFirstAux (pat rep : List Char) : List Char → List Char
  | [] => []
  | c :: rest =>
      if pat.isPrefixOf (c :: rest) then rep ++ (c :: rest).drop pat.length
      else c :: replaceFirstAux pat rep rest

/-- JavaScript `String.prototype.replace` with a plain-string pattern:
replaces only the first occurrence. -/
def jsReplaceFirst (s pat rep : String) : String :=
  String.mk (replaceFirstAux pat.data rep.data s.data)

/-- ASCII lower-casing of one character (`String.prototype.toLowerCase` on
the ASCII extensions involved here). -/
def asciiLower (c : Char) : Char :=
  if 'A' ≤ c ∧ c ≤ 'Z' then Char.ofNat (c.toNat + 32) else c

/-- JavaScript `String.prototype.toLowerCase`, character by character. -/
def jsToLower (s : String) : String :=
  String.mk (s.data.map asciiLower)

/-! ### Request signer (`AsrClient.generateSignature`, part_000 lines 94-108) -/

/-- The keys of a parameter record, in insertion order (`Object.keys`). -/
def paramKeys (params : List (String × String)) : List String :=
  params.map Prod.fst

/-- The source's filter on keys: `k !== "signature" && params[k]`
(a present, non-empty value is truthy). -/
def srcKeep (params : List (String × String)) (k : String) : Bool :=
  decide (k ≠ "signature" ∧ (jsGet params k).getD "" ≠ "")

/-- Key-wise order on parameter pairs, used to sort by key. -/
def pairKeyLe (a b : String × String) : Prop :=
  a.1 ≤ b.1

instance : DecidableRel pairKeyLe :=
  fun a b => inferInstanceAs (Decidable (a.1 ≤ b.1))

instance : IsTotal (String × String) pairKeyLe :=
  ⟨fun a b => le_total a.1 b.1⟩

instance : IsTrans (String × String) pairKeyLe :=
  ⟨fun _ _ _ h1 h2 => le_trans h1 h2⟩

/-- The canonical string built by the source: filter the keys, sort them
(JavaScript default `.sort()`, modelled by the lexicographic order on
`String`), URL-encode key and looked-up value, join with `&`. -/
def canonicalString (params : List (String × String)) : String :=
  String.intercalate "&"
    ((((paramKeys params).filter (srcKeep params)).insertionSort (· ≤ ·)).map
      fun k => encodeURIComponent k ++ "=" ++
        encodeURIComponent ((jsGet params k).getD ""))

/-- `AsrClient.generateSignature`: empty string when no (or an empty) secret
is configured, otherwise Base64 of the HMAC-SHA1 of the canonical string. -/
def generateSignature (secret : Option String) (params : List (String × String)) :
    String :=
  match secret with
  | none => ""
  | some s =>
      if s = "" then ""
      else base64Encode (hmacSha1 (strBytes s) (strBytes (canonicalString params)))

/-- The specification's filter, stated directly on parameter pairs: drop a
pair whose key is `"signature"` or whose value is empty. -/
def specKeep (kv : String × String) : Bool :=
  decide (kv.1 ≠ "signature" ∧ kv.2 ≠ "")

/-- The canonical string as the specification words it: drop parameters
named `"signature"` or with an empty value, sort the remaining pairs by key,
URL-encode keys and values, join as `key=value` with `&`. -/
def specCanonicalString (params : List (String × String)) : String :=
  String.intercalate "&"
    (((params.filter specKeep).insertionSort pairKeyLe).map
      fun kv => encodeURIComponent kv.1 ++ "=" ++ encodeURIComponent kv.2)

/-! ### Transcript parser (`AsrClient.parseTranscript`, part_000 lines 227-245) -/

/-- One entry of the vendor's sentence array; every field may be absent. -/
structure Sentence where
  speakerId : Option String
  text : Option String
  beginTime : Option Int
  endTime : Option Int
deriving DecidableEq, Repr

/-- `AsrSegment` of the source. -/
structure AsrSegment where
  speaker : String
  text : String
  startTime : Option Int
  endTime : Option Int
deriving DecidableEq, Repr

/-- The body of the `for (const sentence of sentences)` loop of
`parseTranscript`: default the speaker, default the text, and push a segment
and a `"speaker: text"` line when the trimmed text is non-empty. -/
def parseStep (acc : List AsrSegment × List String) (s : Sentence) :
    List AsrSegment × List String :=
  let speaker := jsOrStr s.speakerId "S0"
  let text := s.text.getD ""
  if text.trim ≠ "" then
    (acc.1 ++ [⟨speaker, text.trim, s.beginTime, s.endTime⟩],
     acc.2 ++ [speaker ++ ": " ++ text.trim])
  else acc

/-- `AsrClient.parseTranscript`: the source's loop over the sentence array,
accumulating segments and `"speaker: text"` lines, then joining the lines
with a newline.  Returns `(text, segments)`. -/
def parseTranscript (sentences : List Sentence) : String × List AsrSegment :=
  let r := sentences.foldl parseStep ([], [])
  (String.intercalate "\n" r.2, r.1)

/-- A sentence is retained exactly when its (defaulted) text trims to a
non-empty string. -/
def keepSentence (s : Sentence) : Bool :=
  decide ((s.text.getD "").trim ≠ "")

/-- The segment produced from one retained sentence: speaker defaulted to
`"S0"` when missing (or empty), text trimmed, timestamps copied. -/
def mkSegment (s : Sentence) : AsrSegment :=
  ⟨jsOrStr s.speakerId "S0", (s.text.getD "").trim, s.beginTime, s.endTime⟩

/-! ### Poller (`AsrClient.pollResult`, part_000 lines 168-222) -/

/-- One poll response as observed by the client: the HTTP success flag and
status, the vendor `code` and `descInfo`, the nested
`content?.orderInfo?.status` value, and the nested sentence array
`content?.orderResult?.sentences`. -/
structure PollResponse where
  httpOk : Bool
  httpStatus : Nat
  code : String
  descInfo : Option String
  status : Option Int
  sentences : List Sentence
deriving DecidableEq, Repr

/-- Rendering of the (possibly absent) status in a template literal. -/
def optIntStr (o : Option Int) : String :=
  match o with
  | none => "undefined"
  | some n => toString n

/-- Trace of one `pollResult` run: the outcome, the number of status queries
issued, and the list of timed waits (milliseconds) performed. -/
structure PollTrace where
  result : Except String PollResponse
  queries : Nat
  waits : List Nat
deriving Repr

/-- The body of the `while (retries < maxRetries)` loop, with the remaining
iteration budget as fuel; `a` is the index of the next response on the wire.
Mirrors part_000 lines 171-219 check for check, in source order. -/
def pollAux (responses : Nat → PollResponse) (maxRetries : Nat) :
    Nat → Nat → PollTrace
  | _, 0 =>
      ⟨Except.error ("查询超时: 已重试 " ++ toString maxRetries ++ " 次"), 0, []⟩
  | a, fuel + 1 =>
      let r := responses a
      if r.httpOk = false then
        ⟨Except.error ("查询失败: " ++ toString r.httpStatus), 1, []⟩
      else if r.code ≠ "000000" then
        ⟨Except.error ("查询失败: " ++ r.code ++ " - " ++ jsOrStr r.descInfo "未知错误"), 1, []⟩
      else if r.status = some 4 then
        ⟨Except.ok r, 1, []⟩
      else if r.status ≠ some 3 then
        ⟨Except.error ("转写异常: 状态码=" ++ optIntStr r.status), 1, []⟩
      else
        let t := pollAux responses maxRetries (a + 1) fuel
        ⟨t.result, t.queries + 1, 10000 :: t.waits⟩

/-- `AsrClient.pollResult` over a response oracle; `maxRetries` defaults
to 100 as in the source. -/
def pollResult (responses : Nat → PollResponse) (maxRetries : Nat := 100) :
    PollTrace :=
  pollAux responses maxRetries 0 maxRetries

/-- A "processing" poll response: HTTP success, vendor code `"000000"`,
status 3. -/
def isProc (r : PollResponse) : Prop :=
  r.httpOk = true ∧ r.code = "000000" ∧ r.status = some 3

instance (r : PollResponse) : Decidable (isProc r) :=
  inferInstanceAs (Decidable (_ ∧ _ ∧ _))

/-! ### Audio file check and transcription pipeline
(`AsrClient.checkAudioFile` lines 72-89, `AsrClient.transcribe` lines 44-67) -/

/-- What `fs.stat` can observe about a path. -/
inductive FsEntry
  | missing
  | dir
  | file (size : Nat)
deriving DecidableEq, Repr

/-- The characters after the last `'/'` (the basename of a path). -/
def afterLastSlash (cs : List Char) : List Char :=
  cs.foldl (fun acc c => if c = '/' then [] else acc ++ [c]) []

/-- Node `path.extname`, restricted to the behaviours relevant here: the
extension starts at the last dot of the basename, a leading dot or a
dot-only name yields the empty extension. -/
def extname (p : String) : String :=
  let base := afterLastSlash p.data
  if base = ['.'] ∨ base = ['.', '.'] then ""
  else
    match base.reverse.findIdx? (· == '.') with
    | none => ""
    | some j =>
        if base.length - 1 - j = 0 then ""
        else String.mk (base.drop (base.length - 1 - j))

/-- The extension allow-list of `checkAudioFile`. -/
def allowedExts : List String :=
  [".wav", ".mp3", ".m4a"]

/-- `AsrClient.checkAudioFile`: stat the path (ENOENT becomes the
"file missing" error), require a regular file, require an allow-listed
lowercased extension. -/
def checkAudioFile (fs : String → FsEntry) (audioPath : String) :
    Except String Unit :=
  match fs audioPath with
  | FsEntry.missing => Except.error ("音频文件不存在: " ++ audioPath)
  | FsEntry.dir => Except.error ("不是有效的文件: " ++ audioPath)
  | FsEntry.file _ =>
      let ext := jsToLower (extname audioPath)
      if ext ∈ allowedExts then Except.ok ()
      else Except.error ("不支持的音频格式: " ++ ext ++ "，仅支持 wav/mp3/m4a")

/-- The upload response as observed by `uploadAudio`: HTTP success flag and
status, response body text, vendor `code` and `descInfo`, and the nested
`content?.orderId`. -/
structure UploadResponse where
  httpOk : Bool
  httpStatus : Nat
  bodyText : String
  code : String
  descInfo : Option String
  orderId : Option String
deriving DecidableEq, Repr

/-- Outcome of `uploadAudio` (part_000 lines 152-162) after the upload
request was issued. -/
def uploadOutcome (r : UploadResponse) : Except String UploadResponse :=
  if r.httpOk = false then
    Except.error ("上传失败: " ++ toString r.httpStatus ++ " " ++ r.bodyText)
  else if r.code ≠ "000000" then
    Except.error ("上传失败: " ++ r.code ++ " - " ++ jsOrStr r.descInfo "未知错误")
  else Except.ok r

/-- `AsrResult` of the source. -/
structure AsrResult where
  text : String
  orderId : Option String
  segments : List AsrSegment
deriving DecidableEq, Repr

/-- `AsrClient.transcribe` over explicit filesystem and network oracles.
Returns the result together with the number of network requests issued
(the upload request plus each status query). -/
def transcribe (fs : String → FsEntry) (upload : UploadResponse)
    (responses : Nat → PollResponse) (maxRetries : Nat) (audioPath : String) :
    Except String AsrResult × Nat :=
  match checkAudioFile fs audioPath with
  | Except.error e => (Except.error e, 0)
  | Except.ok _ =>
      match uploadOutcome upload with
      | Except.error e => (Except.error e, 1)
      | Except.ok r =>
          let oid := r.orderId.getD ""
          if oid = "" then (Except.error "上传失败：未获取到订单ID", 1)
          else
            let t := pollResult responses maxRetries
            match t.result with
            | Except.error e => (Except.error e, 1 + t.queries)
            | Except.ok payload =>
                let parsed := parseTranscript payload.sentences
                (Except.ok ⟨parsed.1, some oid, parsed.2⟩, 1 + t.queries)

/-! ### Renderer client and mindmap fallback
(`RendererClient.renderMarkmap`, `meeting_mindmap.execute`) -/

/-- What one `fetch` of the render endpoint can produce: a thrown network
error, or a response with HTTP flag/status, body text, and the optional
`image` field of the JSON body. -/
inductive FetchOutcome
  | netError (msg : String)
  | response (ok : Bool) (status : Nat) (bodyText : String) (image : Option String)
deriving DecidableEq, Repr

/-- `RenderResult` of the source; `imageData` keeps the Base64 payload the
source would decode into a `Buffer`. -/
structure RenderResult where
  success : Bool
  imageData : Option String
  error : Option String
deriving DecidableEq, Repr

/-- `RendererClient.renderMarkmap`: a thrown fetch is caught and reported as
service unavailable; a non-2xx response or an absent/empty `image` field is
a non-success result; otherwise the image payload is returned. -/
def renderMarkmap (outcome : FetchOutcome) : RenderResult :=
  match outcome with
  | FetchOutcome.netError m => ⟨false, none, some ("Markmap 服务不可用: " ++ m)⟩
  | FetchOutcome.response ok status body image =>
      if ok = false then
        ⟨false, none, some ("渲染失败: " ++ toString status ++ " " ++ body)⟩
      else
        match image with
        | some b64 =>
            if b64 = "" then ⟨false, none, some "渲染结果为空"⟩
            else ⟨true, some b64, none⟩
        | none => ⟨false, none, some "渲染结果为空"⟩

/-- The structured result `meeting_mindmap.execute` returns, together with
the list of files it wrote. -/
structure MindmapOutcome where
  status : String
  message : String
  markdownFile : String
  imageFile : Option String
  tip : String
  savedFiles : List String
deriving DecidableEq, Repr

/-- Tail of `meeting_mindmap.execute` (tools.ts lines 266-293), starting
after the LLM produced the mindmap Markdown and it was saved to
`markdownPath`: optionally render an image, then build the success result.
`renderImage` is the raw optional tool input (`input.render_image`). -/
def meetingMindmapFinish (markdownPath : String) (renderImage : Option Bool)
    (hasRenderer : Bool) (outcome : FetchOutcome) : MindmapOutcome :=
  let imagePath : Option String :=
    if renderImage ≠ some false ∧ hasRenderer then
      let rr := renderMarkmap outcome
      if rr.success ∧ rr.imageData.isSome then
        some (jsReplaceFirst markdownPath ".md" ".png")
      else none
    else none
  { status := "success"
    message := "思维导图生成完成"
    markdownFile := markdownPath
    imageFile := imagePath
    tip := match imagePath with
      | some _ => "已生成 Markdown 和 PNG 图片"
      | none => "已生成 Markdown（渲染服务不可用，未生成图片）"
    savedFiles := markdownPath :: (match imagePath with
      | some p => [p]
      | none => []) }

/-! ### Source-input resolution in `meeting_summarize` / `meeting_mindmap`
(tools.ts lines 158-164 and 235-241) -/

/-- Source resolution in `meeting_summarize.execute`: the input is read from
the filesystem when it ends with `".md"` or contains a `"/"`, otherwise it
is used verbatim.  The second component records whether the filesystem was
consulted. -/
def resolveSummarizeSource (fileContent : String → String) (source : String) :
    String × Bool :=
  if jsEndsWith source ".md" || jsIncludes source "/" then (fileContent source, true)
  else (source, false)

/-- Source resolution in `meeting_mindmap.execute`; the condition is the
same as in `meeting_summarize.execute`. -/
def resolveMindmapSource (fileContent : String → String) (source : String) :
    String × Bool :=
  if jsEndsWith source ".md" || jsIncludes source "/" then (fileContent source, true)
  else (source, false)

/-! ### Concrete fixtures used by witnesses -/

/-- A "processing" poll response (status 3). -/
def procResp : PollResponse :=
  ⟨true, 200, "000000", none, some 3, []⟩

/-- A "complete" poll response (status 4). -/
def doneResp : PollResponse :=
  ⟨true, 200, "000000", none, some 4, []⟩

/-- A response with an unexpected status (5). -/
def oddResp : PollResponse :=
  ⟨true, 200, "000000", none, some 5, []⟩

/-- An oracle answering status 3 for the first `n` queries, then status 4. -/
def stepOracle (n i : Nat) : PollResponse :=
  if i < n then procResp else doneResp

/-- An oracle answering status 3 once, then an unexpected status. -/
def oddOracle (i : Nat) : PollResponse :=
  if i < 1 then procResp else oddResp

/-- An oracle that always answers status 3. -/
def procOracle (_ : Nat) : PollResponse :=
  procResp

/-- A successful upload response carrying an order id. -/
def sampleUpload : UploadResponse :=
  ⟨true, 200, "", "000000", none, some "abc123"⟩

/-! ### Theorems -/

theorem parseStep_keep (acc : List AsrSegment × List String) (s : Sentence)
    (h : keepSentence s = true) :
    parseStep acc s =
      (acc.1 ++ [mkSegment s],
       acc.2 ++ [(mkSegment s).speaker ++ ": " ++ (mkSegment s).text]) := by
  have h' : (s.text.getD "").trim ≠ "" := of_decide_eq_true h
  unfold parseStep mkSegment
  simp [h']

theorem parseStep_drop (acc : List AsrSegment × List String) (s : Sentence)
    (h : keepSentence s = false) : parseStep acc s = acc := by
  have h' : ¬ (s.text.getD "").trim ≠ "" := of_decide_eq_false h
  unfold parseStep
  simp [h']

theorem parseTranscript_foldl (sentences : List Sentence) :
    ∀ (segs : List AsrSegment) (parts : List String),
      sentences.foldl parseStep (segs, parts) =
      (segs ++ (sentences.filter keepSentence).map mkSegment,
       parts ++ (sentences.filter keepSentence).map
        (fun s => (mkSegment s).speaker ++ ": " ++ (mkSegment s).text)) := by
  induction sentences with
  | nil => intro segs parts; simp
  | cons s rest ih =>
      intro segs parts
      rw [List.foldl_cons, List.filter_cons]
      cases hk : keepSentence s with
      | true =>
          rw [parseStep_keep (segs, parts) s hk, ih]
          simp [List.append_assoc]
      | false =>
          rw [parseStep_drop (segs, parts) s hk, ih]
          simp

/-- C5: `parseTranscript` drops exactly the sentences whose trimmed text is
empty, keeps the input order of the retained entries in the segment list,
defaults a missing (or empty) speaker id to `"S0"` and trims the retained
text (both via `mkSegment`), and the joined text is the newline-separated
concatenation of the `"speaker: text"` lines of the retained entries. -/
theorem parseTranscript_drops_empty_keeps_order (sentences : List Sentence) :
    (parseTranscript sentences).2 = (sentences.filter keepSentence).map mkSegment ∧
    (parseTranscript sentences).1 =
      String.intercalate "\n" ((sentences.filter keepSentence).map
        (fun s => (mkSegment s).speaker ++ ": " ++ (mkSegment s).text)) := by
  unfold parseTranscript
  rw [parseTranscript_foldl sentences [] []]
  exact ⟨rfl, rfl⟩

/-- C9: when the mindmap tool attempts rendering (`render_image` true, a
renderer configured) and the render request does not succeed — a thrown
network error or a non-success render result — the tool still has the saved
Markdown file as its only written file and returns a success-status result
with no image file and the "no image generated" note. -/
theorem mindmap_render_failure_still_succeeds (markdownPath : String)
    (outcome : FetchOutcome) (h : (renderMarkmap outcome).success = false) :
    meetingMindmapFinish markdownPath (some true) true outcome =
      { status := "success", message := "思维导图生成完成",
        markdownFile := markdownPath, imageFile := none,
        tip := "已生成 Markdown（渲染服务不可用，未生成图片）",
        savedFiles := [markdownPath] } := by
  unfold meetingMindmapFinish
  simp [h]

theorem mindmap_render_failure_witness :
    (renderMarkmap (FetchOutcome.netError "connect ECONNREFUSED")).success = false ∧
    meetingMindmapFinish "out/mindmap.md" (some true) true
        (FetchOutcome.netError "connect ECONNREFUSED") =
      { status := "success", message := "思维导图生成完成",
        markdownFile := "out/mindmap.md", imageFile := none,
        tip := "已生成 Markdown（渲染服务不可用，未生成图片）",
        savedFiles := ["out/mindmap.md"] } :=
  ⟨rfl, mindmap_render_failure_still_succeeds "out/mindmap.md"
    (FetchOutcome.netError "connect ECONNREFUSED") rfl⟩

/-- C10: in both `meeting_summarize` and `meeting_mindmap` the source input
is read from the filesystem exactly when it ends with `".md"` or contains a
`"/"`; any other source string is used verbatim, so a literal text
containing a slash is always treated as a file path. -/
theorem source_read_as_path_iff (fileContent : String → String) (source : String) :
    ((resolveSummarizeSource fileContent source).2 = true ↔
      (jsEndsWith source ".md" = true ∨ jsIncludes source "/" = true)) ∧
    resolveMindmapSource fileContent source = resolveSummarizeSource fileContent source ∧
    ((resolveSummarizeSource fileContent source).2 = false →
      resolveSummarizeSource fileContent source = (source, false)) := by
  unfold resolveSummarizeSource resolveMindmapSource
  by_cases h : (jsEndsWith source ".md" || jsIncludes source "/") = true
  · simp only [Bool.or_eq_true] at h
    rcases h with h1 | h1 <;> simp [h1]
  · simp only [Bool.or_eq_true, not_or, Bool.not_eq_true] at h
    simp [h.1, h.2]

theorem source_read_as_path_witness :
    (((resolveSummarizeSource (fun _ => "file body") "literal text with / slash").2 = true ↔
      (jsEndsWith "literal text with / slash" ".md" = true ∨
        jsIncludes "literal text with / slash" "/" = true)) ∧
      resolveMindmapSource (fun _ => "file body") "literal text with / slash" =
        resolveSummarizeSource (fun _ => "file body") "literal text with / slash" ∧
      ((resolveSummarizeSource (fun _ => "file body") "literal text with / slash").2 = false →
        resolveSummarizeSource (fun _ => "file body") "literal text with / slash" =
          ("literal text with / slash", false))) ∧
    (resolveSummarizeSource (fun _ => "file body") "literal text with / slash").2 = true :=
  ⟨source_read_as_path_iff (fun _ => "file body") "literal text with / slash", by decide⟩

/-- C6: a path that does not name an existing regular file, or whose
lowercased extension is outside the allow-list, makes `transcribe` fail with
the validation error while zero network requests are issued. -/
theorem transcribe_rejects_invalid_audio (fs : String → FsEntry)
    (upload : UploadResponse) (responses : Nat → PollResponse)
    (maxRetries : Nat) (audioPath : String)
    (h : (∀ sz, fs audioPath ≠ FsEntry.file sz) ∨
      jsToLower (extname audioPath) ∉ allowedExts) :
    (transcribe fs upload responses maxRetries audioPath).2 = 0 ∧
    ∃ e, (transcribe fs upload responses maxRetries audioPath).1 = Except.error e := by
  have hc : ∃ e, checkAudioFile fs audioPath = Except.error e := by
    unfold checkAudioFile
    cases hfs : fs audioPath with
    | missing => exact ⟨_, rfl⟩
    | dir => exact ⟨_, rfl⟩
    | file sz =>
        rcases h with h1 | h2
        · exact absurd hfs (h1 sz)
        · simp only [if_neg h2]
          exact ⟨_, rfl⟩
  obtain ⟨e, he⟩ := hc
  unfold transcribe
  rw [he]
  exact ⟨rfl, e, rfl⟩

theorem transcribe_rejects_witness :
    (jsToLower (extname "meeting.txt") ∉ allowedExts) ∧
    ((transcribe (fun _ => FsEntry.file 10) sampleUpload procOracle 3 "meeting.txt").2 = 0 ∧
      ∃ e, (transcribe (fun _ => FsEntry.file 10) sampleUpload procOracle 3
        "meeting.txt").1 = Except.error e) :=
  ⟨by decide, transcribe_rejects_invalid_audio (fun _ => FsEntry.file 10)
    sampleUpload procOracle 3 "meeting.txt" (Or.inr (by decide))⟩

theorem pollAux_skip (responses : Nat → PollResponse) (m N : Nat) :
    ∀ (a fuel : Nat), N ≤ fuel → (∀ i, i < N → isProc (responses (a + i))) →
    pollAux responses m a fuel =
      ⟨(pollAux responses m (a + N) (fuel - N)).result,
       (pollAux responses m (a + N) (fuel - N)).queries + N,
       List.replicate N 10000 ++ (pollAux responses m (a + N) (fuel - N)).waits⟩ := by
  induction N with
  | zero => intro a fuel _ _; simp
  | succ n ih =>
      intro a fuel hle hproc
      obtain ⟨f, rfl⟩ : ∃ f, fuel = f + 1 := ⟨fuel - 1, by omega⟩
      obtain ⟨h1, h2, h3⟩ := hproc 0 (Nat.succ_pos n)
      rw [Nat.add_zero] at h1 h2 h3
      have hstep : pollAux responses m a (f + 1) =
          ⟨(pollAux responses m (a + 1) f).result,
           (pollAux responses m (a + 1) f).queries + 1,
           10000 :: (pollAux responses m (a + 1) f).waits⟩ := by
        simp [pollAux, h1, h2, h3]
      have hshift : ∀ i, i < n → isProc (responses (a + 1 + i)) := by
        intro i hi
        have := hproc (i + 1) (by omega)
        have harith : a + (i + 1) = a + 1 + i := by omega
        rwa [harith] at this
      rw [hstep, ih (a + 1) f (by omega) hshift]
      have harith1 : a + 1 + n = a + (n + 1) := by omega
      have harith2 : f - n = f + 1 - (n + 1) := by omega
      rw [harith1, harith2]
      simp only [List.replicate_succ, List.cons_append, PollTrace.mk.injEq]
      refine ⟨trivial, by omega, trivial⟩

/-- C1: when the first `N` poll responses are "processing" (status 3) and
the `(N+1)`-th is "complete" (status 4), with `N + 1 ≤ maxRetries`,
`pollResult` returns the full payload of the `(N+1)`-th response, issues
exactly `N + 1` status queries, and performs one fixed 10-second
(10000 ms) wait after each status-3 response. -/
theorem pollResult_returns_completing_payload (responses : Nat → PollResponse)
    (maxRetries N : Nat) (h3 : ∀ i, i < N → isProc (responses i))
    (h4 : (responses N).httpOk = true ∧ (responses N).code = "000000" ∧
      (responses N).status = some 4)
    (hle : N + 1 ≤ maxRetries) :
    pollResult responses maxRetries =
      ⟨Except.ok (responses N), N + 1, List.replicate N 10000⟩ := by
  unfold pollResult
  have hskip := pollAux_skip responses maxRetries N 0 maxRetries (by omega)
    (by intro i hi; simpa using h3 i hi)
  rw [hskip]
  obtain ⟨f, hf⟩ : ∃ f, maxRetries - N = f + 1 := ⟨maxRetries - N - 1, by omega⟩
  rw [hf]
  obtain ⟨h41, h42, h43⟩ := h4
  have hstep : pollAux responses maxRetries (0 + N) (f + 1) =
      ⟨Except.ok (responses N), 1, []⟩ := by
    simp [pollAux, h41, h42, h43]
  rw [hstep]
  simp [Nat.add_comm]

theorem pollResult_returns_completing_payload_witness :
    ((∀ i, i < 2 → isProc (stepOracle 2 i)) ∧
      (stepOracle 2 2).httpOk = true ∧ (stepOracle 2 2).code = "000000" ∧
      (stepOracle 2 2).status = some 4 ∧ 2 + 1 ≤ 5) ∧
    pollResult (stepOracle 2) 5 =
      ⟨Except.ok (stepOracle 2 2), 2 + 1, List.replicate 2 10000⟩ :=
  ⟨⟨by intro i hi; interval_cases i <;> exact ⟨rfl, rfl, rfl⟩, rfl, rfl, rfl, by omega⟩,
    pollResult_returns_completing_payload (stepOracle 2) 5 2
      (by intro i hi; interval_cases i <;> exact ⟨rfl, rfl, rfl⟩)
      ⟨rfl, rfl, rfl⟩ (by omega)⟩

theorem pollAux_all_processing (responses : Nat → PollResponse) (m : Nat)
    (h : ∀ i, isProc (responses i)) :
    ∀ (fuel a : Nat), pollAux responses m a fuel =
      ⟨Except.error ("查询超时: 已重试 " ++ toString m ++ " 次"), fuel,
       List.replicate fuel 10000⟩ := by
  intro fuel
  induction fuel with
  | zero => intro a; simp [pollAux]
  | succ f ih =>
      intro a
      obtain ⟨h1, h2, h3⟩ := h a
      simp [pollAux, h1, h2, h3, ih (a + 1), List.replicate_succ]

/-- C2: when every poll response is "processing" (status 3), `pollResult`
issues exactly `maxRetries` status queries and fails with the timeout error
naming that exact retry count; with the default retry budget this is 100
queries and the message `"查询超时: 已重试 100 次"`. -/
theorem pollResult_timeout_after_maxRetries (responses : Nat → PollResponse)
    (maxRetries : Nat) (h : ∀ i, isProc (responses i)) :
    pollResult responses maxRetries =
      ⟨Except.error ("查询超时: 已重试 " ++ toString maxRetries ++ " 次"),
       maxRetries, List.replicate maxRetries 10000⟩ ∧
    pollResult responses =
      ⟨Except.error "查询超时: 已重试 100 次", 100, List.replicate 100 10000⟩ := by
  constructor
  · exact pollAux_all_processing responses maxRetries h maxRetries 0
  · rw [pollResult, pollAux_all_processing responses 100 h 100 0]
    have hstr : ("查询超时: 已重试 " ++ toString (100 : Nat) ++ " 次") =
        "查询超时: 已重试 100 次" := by decide
    rw [hstr]

theorem pollResult_timeout_witness :
    (∀ i, isProc (procOracle i)) ∧
    (pollResult procOracle 3 =
      ⟨Except.error ("查询超时: 已重试 " ++ toString 3 ++ " 次"), 3,
       List.replicate 3 10000⟩ ∧
     pollResult procOracle =
      ⟨Except.error "查询超时: 已重试 100 次", 100, List.replicate 100 10000⟩) :=
  ⟨fun _ => ⟨rfl, rfl, rfl⟩,
    pollResult_timeout_after_maxRetries procOracle 3 (fun _ => ⟨rfl, rfl, rfl⟩)⟩

/-- C7: if, after `N` "processing" responses, a poll response arrives with
HTTP success and vendor code `"000000"` but a status that is neither 3 nor
4, `pollResult` fails immediately with the terminal error reporting that
status code: exactly `N + 1` queries are issued and no further wait or
retry happens after the offending response. -/
theorem pollResult_unexpected_status_terminal (responses : Nat → PollResponse)
    (maxRetries N : Nat) (s : Option Int)
    (h3 : ∀ i, i < N → isProc (responses i))
    (hr : (responses N).httpOk = true ∧ (responses N).code = "000000" ∧
      (responses N).status = s)
    (hs4 : s ≠ some 4) (hs3 : s ≠ some 3) (hle : N + 1 ≤ maxRetries) :
    pollResult responses maxRetries =
      ⟨Except.error ("转写异常: 状态码=" ++ optIntStr s), N + 1,
       List.replicate N 10000⟩ := by
  unfold pollResult
  have hskip := pollAux_skip responses maxRetries N 0 maxRetries (by omega)
    (by intro i hi; simpa using h3 i hi)
  rw [hskip]
  obtain ⟨f, hf⟩ : ∃ f, maxRetries - N = f + 1 := ⟨maxRetries - N - 1, by omega⟩
  rw [hf]
  obtain ⟨h41, h42, h43⟩ := hr
  have hstep : pollAux responses maxRetries (0 + N) (f + 1) =
      ⟨Except.error ("转写异常: 状态码=" ++ optIntStr s), 1, []⟩ := by
    simp [pollAux, h41, h42, h43, hs4, hs3]
  rw [hstep]
  simp [Nat.add_comm]

theorem pollResult_unexpected_status_witness :
    ((∀ i, i < 1 → isProc (oddOracle i)) ∧
      (oddOracle 1).httpOk = true ∧ (oddOracle 1).code = "000000" ∧
      (oddOracle 1).status = some 5 ∧ (some 5 : Option Int) ≠ some 4 ∧
      (some 5 : Option Int) ≠ some 3 ∧ 1 + 1 ≤ 4) ∧
    pollResult oddOracle 4 =
      ⟨Except.error ("转写异常: 状态码=" ++ optIntStr (some 5)), 1 + 1,
       List.replicate 1 10000⟩ :=
  ⟨⟨by intro i hi; interval_cases i; exact ⟨rfl, rfl, rfl⟩,
     rfl, rfl, rfl, by decide, by decide, by omega⟩,
    pollResult_unexpected_status_terminal oddOracle 4 1 (some 5)
      (by intro i hi; interval_cases i; exact ⟨rfl, rfl, rfl⟩)
      ⟨rfl, rfl, rfl⟩ (by decide) (by decide) (by omega)⟩

theorem jsGet_eq_of_mem {params : List (String × String)} {k v : String}
    (hnd : (paramKeys params).Nodup) (hm : (k, v) ∈ params) :
    jsGet params k = some v := by
  induction params with
  | nil => cases hm
  | cons kv rest ih =>
      obtain ⟨k2, v2⟩ := kv
      simp only [paramKeys, List.map_cons, List.nodup_cons] at hnd
      rcases List.mem_cons.mp hm with heq | hmem
      · cases heq
        simp [jsGet]
      · have hk : ¬ (k2 = k) := by
          intro hkk
          subst hkk
          exact hnd.1 (List.mem_map_of_mem Prod.fst hmem)
        simp only [jsGet, if_neg hk]
        exact ih hnd.2 hmem

theorem srcFilter_eq_specFilter (params : List (String × String))
    (hnd : (paramKeys params).Nodup) :
    (paramKeys params).filter (srcKeep params) = paramKeys (params.filter specKeep) := by
  induction params with
  | nil => rfl
  | cons kv rest ih =>
      obtain ⟨k, v⟩ := kv
      simp only [paramKeys, List.map_cons, List.nodup_cons] at hnd
      have hhead : srcKeep ((k, v) :: rest) k = specKeep (k, v) := by
        simp [srcKeep, specKeep, jsGet]
      have htail : (List.map Prod.fst rest).filter (srcKeep ((k, v) :: rest)) =
          (List.map Prod.fst rest).filter (srcKeep rest) := by
        apply List.filter_congr
        intro a ha
        have hka : ¬ (k = a) := fun hkk => hnd.1 (hkk ▸ ha)
        simp [srcKeep, jsGet, hka]
      show (k :: List.map Prod.fst rest).filter (srcKeep ((k, v) :: rest)) =
        paramKeys (((k, v) :: rest).filter specKeep)
      have ih' := ih hnd.2
      simp only [paramKeys] at ih'
      rw [List.filter_cons, hhead, htail, ih']
      by_cases hs : specKeep (k, v) = true
      · simp [hs, paramKeys, List.filter_cons]
      · simp only [Bool.not_eq_true] at hs
        simp [hs, paramKeys, List.filter_cons]

theorem canonicalString_eq_spec (params : List (String × String))
    (hnd : (paramKeys params).Nodup) :
    canonicalString params = specCanonicalString params := by
  unfold canonicalString specCanonicalString
  congr 1
  rw [srcFilter_eq_specFilter params hnd]
  have hmapfst : (List.insertionSort pairKeyLe (params.filter specKeep)).map Prod.fst =
      List.insertionSort (· ≤ ·) (paramKeys (params.filter specKeep)) := by
    apply List.eq_of_perm_of_sorted (r := fun a b : String => a ≤ b)
    · exact ((List.perm_insertionSort pairKeyLe _).map Prod.fst).trans
        (List.perm_insertionSort _ _).symm
    · exact List.pairwise_map.mpr (List.sorted_insertionSort pairKeyLe _)
    · exact List.sorted_insertionSort _ _
  rw [← hmapfst, List.map_map]
  apply List.map_congr_left
  intro kv hkv
  have hkvA : kv ∈ params.filter specKeep :=
    (List.perm_insertionSort pairKeyLe _).mem_iff.mp hkv
  have hkvP : kv ∈ params := (List.mem_filter.mp hkvA).1
  have hget : jsGet params kv.1 = some kv.2 :=
    jsGet_eq_of_mem hnd (by simpa using hkvP)
  simp [Function.comp, hget]

/-- C3: with a configured (non-empty) secret, `generateSignature` returns
the Base64-encoded HMAC-SHA1 digest of the canonical string the
specification describes — parameters named `"signature"` or with an empty
value dropped, remaining pairs sorted lexicographically by key, keys and
values URL-encoded and joined as `key=value` with `&` — and with no secret
configured it returns the empty string regardless of parameter content. -/
theorem generateSignature_matches_spec (secret : String)
    (params : List (String × String)) (hnd : (paramKeys params).Nodup)
    (hsec : secret ≠ "") :
    generateSignature (some secret) params =
      base64Encode (hmacSha1 (strBytes secret)
        (strBytes (specCanonicalString params))) ∧
    ∀ q : List (String × String), generateSignature none q = "" := by
  refine ⟨?_, fun q => rfl⟩
  simp only [generateSignature]
  rw [if_neg hsec, canonicalString_eq_spec params hnd]

theorem generateSignature_matches_spec_witness :
    ((paramKeys [("b", "2"), ("a", "1"), ("signature", "x"), ("empty", "")]).Nodup ∧
      ("secret" : String) ≠ "") ∧
    (generateSignature (some "secret")
        [("b", "2"), ("a", "1"), ("signature", "x"), ("empty", "")] =
      base64Encode (hmacSha1 (strBytes "secret")
        (strBytes (specCanonicalString
          [("b", "2"), ("a", "1"), ("signature", "x"), ("empty", "")]))) ∧
      ∀ q : List (String × String), generateSignature none q = "") :=
  ⟨⟨by decide, by decide⟩,
    generateSignature_matches_spec "secret"
      [("b", "2"), ("a", "1"), ("signature", "x"), ("empty", "")]
      (by decide) (by decide)⟩

theorem sortedPairs_eq_of_perm {L1 L2 : List (String × String)}
    (hp : L1.Perm L2) (hs1 : List.Sorted pairKeyLe L1)
    (hs2 : List.Sorted pairKeyLe L2) (hnd : (L1.map Prod.fst).Nodup) :
    L1 = L2 := by
  haveI : IsAntisymm (String × String) (fun a b => a.1 < b.1) :=
    ⟨fun a b h1 h2 => absurd (lt_trans h1 h2) (lt_irrefl _)⟩
  have hnd2 : (L2.map Prod.fst).Nodup := (hp.map Prod.fst).nodup hnd
  apply List.eq_of_perm_of_sorted (r := fun a b : String × String => a.1 < b.1) hp
  · exact List.Pairwise.imp₂ (fun a b hle hne => lt_of_le_of_ne hle hne) hs1
      (List.pairwise_map.mp hnd)
  · exact List.Pairwise.imp₂ (fun a b hle hne => lt_of_le_of_ne hle hne) hs2
      (List.pairwise_map.mp hnd2)

/-- C4: the signature is independent of the order in which the parameter
map's entries are supplied: for any permutation of an entry list (with the
record's keys pairwise distinct) and any configured secret,
`generateSignature` produces an identical output. -/
theorem generateSignature_order_independent (secret : Option String)
    (l1 l2 : List (String × String)) (hp : l1.Perm l2)
    (hnd : (paramKeys l1).Nodup) :
    generateSignature secret l1 = generateSignature secret l2 := by
  have hnd2 : (paramKeys l2).Nodup := (hp.map Prod.fst).nodup hnd
  have hfilter : (l1.filter specKeep).Perm (l2.filter specKeep) :=
    hp.filter specKeep
  have hsorteq : List.insertionSort pairKeyLe (l1.filter specKeep) =
      List.insertionSort pairKeyLe (l2.filter specKeep) := by
    apply sortedPairs_eq_of_perm
    · exact (List.perm_insertionSort _ _).trans
        (hfilter.trans (List.perm_insertionSort _ _).symm)
    · exact List.sorted_insertionSort _ _
    · exact List.sorted_insertionSort _ _
    · have hsub : List.Sublist ((l1.filter specKeep).map Prod.fst)
          (l1.map Prod.fst) := (List.filter_sublist l1).map Prod.fst
      have h1 : ((l1.filter specKeep).map Prod.fst).Nodup :=
        List.Nodup.sublist hsub hnd
      exact ((List.perm_insertionSort pairKeyLe (l1.filter specKeep)).map
        Prod.fst).symm.nodup h1
  have hspec : specCanonicalString l1 = specCanonicalString l2 := by
    unfold specCanonicalString
    rw [hsorteq]
  cases secret with
  | none => rfl
  | some s =>
      by_cases hs : s = ""
      · simp [generateSignature, hs]
      · simp only [generateSignature]
        rw [if_neg hs, if_neg hs, canonicalString_eq_spec l1 hnd,
          canonicalString_eq_spec l2 hnd2, hspec]

theorem generateSignature_order_independent_witness :
    (([("b", "2"), ("a", "1"), ("c", "3")] : List (String × String)).Perm
        [("c", "3"), ("a", "1"), ("b", "2")] ∧
      (paramKeys [("b", "2"), ("a", "1"), ("c", "3")]).Nodup) ∧
    generateSignature (some "secret") [("b", "2"), ("a", "1"), ("c", "3")] =
      generateSignature (some "secret") [("c", "3"), ("a", "1"), ("b", "2")] :=
  ⟨⟨by decide, by decide⟩,
    generateSignature_order_independent (some "secret")
      [("b", "2"), ("a", "1"), ("c", "3")] [("c", "3"), ("a", "1"), ("b", "2")]
      (by decide) (by decide)⟩

end MeetAI
